import Mathlib

/-!
Verification of `pkg/asset/manifests/operators.go` (the `Manifests` asset of
the installer): a shallow embedding of `Generate`, `Load`,
`generateBootKubeManifests`, `applyTemplateData`, `redactedInstallConfig` and
`indent`, together with models of the small pieces of the repository that the
file uses but that are outside the provided sources (the `asset` package's
`File`, `SortFiles` and `FetchByPattern`, the `configurationObject` record,
and the `types.InstallConfig` fields touched here).

/-! ## Definitions: the embedding of operators.go and its models -/

Strings manipulated as paths are modelled as `List Char` (Go strings are byte
sequences; all constants here are ASCII, where byte order and code-point order
agree).  External libraries (ghodss/yaml, text/template, encoding/base64) are
universally quantified function parameters, so every theorem holds for any
behaviour of those libraries; concrete instantiations appear in witnesses.
-/

/-- Model of `asset.File` (pkg/asset, not under src/): a relative path and
fully materialized content.  The path is a char list so that the path
functions below can be reasoned about; content is kept as a `String`. -/
structure File where
  filename : List Char
  data : String
deriving DecidableEq, Repr

/-- Model of Go `strings.TrimSuffix(s, suffix)`: drop `suffix` from the end
of `s` when present, otherwise return `s` unchanged. -/
def goTrimSuffix (s suffix : List Char) : List Char :=
  if suffix.isSuffixOf s then s.take (s.length - suffix.length) else s

/-- Splitting a path on the separator `'/'`; `splitSlash l` agrees with Go's
notion of the `'/'`-separated components of `l` (empty components included). -/
def splitSlash : List Char → List (List Char)
  | [] => [[]]
  | c :: rest =>
    if c = '/' then [] :: splitSlash rest
    else
      match splitSlash rest with
      | [] => [[c]]
      | g :: gs => (c :: g) :: gs

/-- One step of lexical path cleaning: process a single component against the
stack of kept components, as `filepath.Clean` does (skip empty and `"."`,
pop on `".."` where possible). -/
def cleanStep (rooted : Bool) (out : List (List Char)) (c : List Char) : List (List Char) :=
  if c = [] ∨ c = ['.'] then out
  else if c = ['.', '.'] then
    if out ≠ [] ∧ out.getLast? ≠ some ['.', '.'] then out.dropLast
    else if rooted then out else out ++ [c]
  else out ++ [c]

/-- Component-level model of Go `filepath.Clean` (unix separators): split on
`'/'`, process components lexically, rejoin; empty results become `"."`
(or `"/"` when the path was rooted). -/
def goClean (path : List Char) : List Char :=
  if path = [] then ['.']
  else
    let rooted := path.head? = some '/'
    let out := (splitSlash path).foldl (cleanStep rooted) []
    let body := (out.intersperse ['/']).flatten
    if rooted then '/' :: body
    else if body = [] then ['.'] else body

/-- Model of Go `filepath.Join(a, b)` for a non-empty first element: join with
the separator and clean (Go joins the elements from the first non-empty one
and applies `Clean`). -/
def goJoin2 (a b : List Char) : List Char :=
  if a = [] then (if b = [] then [] else goClean b) else goClean (a ++ '/' :: b)

/-- Model of Go `filepath.Base` (unix): empty path gives `"."`; otherwise drop
trailing separators and keep the last component; an all-separator path gives
`"/"`. -/
def goBase (path : List Char) : List Char :=
  if path = [] then ['.']
  else
    let p := (path.reverse.dropWhile (· = '/')).reverse
    let q := (p.reverse.takeWhile (· ≠ '/')).reverse
    if q = [] then ['/'] else q

/-- `manifestDir` of operators.go: the namespaced output directory. -/
def manifestDir : List Char := "manifests".toList

/-- `kubeSysConfigPath` of operators.go:
`filepath.Join(manifestDir, "cluster-config.yaml")`. -/
def kubeSysConfigPath : List Char := goJoin2 manifestDir "cluster-config.yaml".toList

/-- Modelled from the spec: `FetchByPattern` of the `asset` package (not under
src/) fetches the on-disk files matching a glob pattern.  For the fixed
pattern `manifests/*` used by `Load`, a path matches exactly when it starts
with `manifests/` and the rest contains no further separator (`*` matches any
run of non-separator characters). -/
def matchesManifestGlob (name : List Char) : Bool :=
  ("manifests/".toList).isPrefixOf name && (name.drop 10).all (fun c => c ≠ '/')

/-- Modelled from the spec: the successful result of `FetchByPattern` with the
pattern `manifests/*` over a directory holding `disk`: the files whose paths
match the pattern. -/
def fetchByPattern (disk : List File) : List File :=
  disk.filter (fun f => matchesManifestGlob f.filename)

/-- Model of `types/vsphere.Platform` (pkg/types, not under src/): the two
credential fields cleared by `redactedInstallConfig`, with every other field
collapsed into `rest`. -/
structure VSpherePlatform where
  username : String
  password : String
  rest : String
deriving DecidableEq, Repr

/-- Value-level model of `types.InstallConfig` (pkg/types, not under src/):
the fields operators.go reads — `PullSecret`, `Platform.VSphere` (a pointer,
resolved here to an optional record), `ControlPlane.Replicas` and
`ClusterDomain()` — with every other field collapsed into `rest`. -/
structure InstallConfig where
  pullSecret : String
  vsphere : Option VSpherePlatform
  controlPlaneReplicas : Nat
  clusterDomain : String
  rest : String
deriving DecidableEq, Repr

/-- The value transformation of `redactedInstallConfig` (operators.go
266-275), before serialization: the by-value parameter gets an empty
`PullSecret`; when a vSphere platform is set, the pointed-to record is copied,
the copy's `Username`/`Password` are cleared, and the local config points to
the copy. -/
def redactValue (config : InstallConfig) : InstallConfig :=
  let config := { config with pullSecret := "" }
  match config.vsphere with
  | none => config
  | some p => { config with vsphere := some { p with username := "", password := "" } }

/-- `redactedInstallConfig` (operators.go 266-275): clear the secret fields,
then `yaml.Marshal` the result.  The marshaller (ghodss/yaml, an external
library) is a parameter. -/
def redactedInstallConfig (marshalIC : InstallConfig → Except String String)
    (config : InstallConfig) : Except String String :=
  marshalIC (redactValue config)

/-- Written from the spec's words, for comparison with `redactValue`: two
configurations "differing only in those secret fields" (pull-secret, vSphere
username/password) are the configurations that agree after those fields are
scrubbed. -/
def scrubSecrets (c : InstallConfig) : InstallConfig :=
  { c with
    pullSecret := ""
    vsphere := c.vsphere.map (fun p => { p with username := "", password := "" }) }

/-- Modelled from the spec: the metadata of the status record (name and
namespace-like grouping); `configurationObject` lives in the manifests
package outside src/. -/
structure ObjectMeta where
  name : String
  namespc : String
deriving DecidableEq, Repr

/-- Modelled from the spec: the status record — "a serializable snapshot ...
holding a mapping of string keys to string values plus embedded metadata
(name, kind, namespace-like grouping)". -/
structure ConfigurationObject where
  kind : String
  apiVersion : String
  metadata : ObjectMeta
  data : List (String × String)
deriving DecidableEq, Repr

/-- Modelled from the spec: `configMap(namespace, name, data)` builds the
status record with ConfigMap metadata. -/
def configMap (namespc name : String) (data : List (String × String)) :
    ConfigurationObject :=
  { kind := "ConfigMap", apiVersion := "v1"
    metadata := { name := name, namespc := namespc }, data := data }

/-- Outcome of a Go computation observed by a caller: a normal value, a
returned `error`, or a panic unwinding through the caller. -/
inductive GoResult (α : Type) where
  | ok : α → GoResult α
  | err : String → GoResult α
  | panicked : String → GoResult α
deriving DecidableEq, Repr

/-- `true` exactly on the `err` constructor (a returned Go `error`). -/
def GoResult.isErr {α : Type} : GoResult α → Bool
  | .err _ => true
  | _ => false

/-- `bootkubeTemplateData` (pkg/asset/templates, not under src/): the fixed
bound-value schema of named fields, exactly the fields assigned in
operators.go 169-190. -/
structure BootkubeTemplateData where
  cvoClusterID : String
  etcdCaBundle : String
  etcdCaCert : String
  etcdClientCaCert : String
  etcdClientCaKey : String
  etcdClientCert : String
  etcdClientKey : String
  etcdEndpointDNSSuffix : String
  etcdEndpointHostnames : List String
  etcdMetricCaCert : String
  etcdMetricClientCert : String
  etcdMetricClientKey : String
  etcdSignerCert : String
  etcdSignerClientCert : String
  etcdSignerClientKey : String
  etcdSignerKey : String
  mcsTLSCert : String
  mcsTLSKey : String
  pullSecretBase64 : String
  rootCaCert : String
deriving DecidableEq, Repr

/-- A certificate/key producer (the tls assets, not under src/): raw
certificate bytes and raw key bytes, as read by `Cert()`/`Key()`. -/
structure CertKey where
  cert : String
  key : String
deriving DecidableEq, Repr

/-- The resolved dependency values that `generateBootKubeManifests` pulls
besides the install config: cluster id, certificate material, and the file
lists emitted by each templated bootkube asset, in the fixed order of the
loop at operators.go 193-212. -/
structure BootkubeDeps where
  clusterID : String
  etcdCA : CertKey
  etcdCABundleCert : String
  etcdClientCK : CertKey
  etcdMetricCABundleCert : String
  etcdMetricSignerClientCK : CertKey
  etcdSignerCK : CertKey
  etcdSignerClientCK : CertKey
  mcsCK : CertKey
  rootCACert : String
  bootkubeFiles : List (List File)
deriving Repr

/-- operators.go 164-167: the etcd endpoint hostname list, one entry per
control-plane replica, named `etcd-<index>` from index 0. -/
def etcdEndpointHostnames (replicas : Nat) : List String :=
  (List.range replicas).map (fun i => "etcd-" ++ toString i)

/-- operators.go 169-190: assembly of the bound-value schema.  `b64` models
`base64.StdEncoding.EncodeToString` (external library). -/
def buildTemplateData (b64 : String → String) (deps : BootkubeDeps)
    (installConfig : InstallConfig) : BootkubeTemplateData :=
  { cvoClusterID := deps.clusterID
    etcdCaBundle := b64 deps.etcdCABundleCert
    etcdCaCert := deps.etcdCA.cert
    etcdClientCaCert := b64 deps.etcdCA.cert
    etcdClientCaKey := b64 deps.etcdCA.key
    etcdClientCert := b64 deps.etcdClientCK.cert
    etcdClientKey := b64 deps.etcdClientCK.key
    etcdEndpointDNSSuffix := installConfig.clusterDomain
    etcdEndpointHostnames := etcdEndpointHostnames installConfig.controlPlaneReplicas
    etcdMetricCaCert := deps.etcdMetricCABundleCert
    etcdMetricClientCert := b64 deps.etcdMetricSignerClientCK.cert
    etcdMetricClientKey := b64 deps.etcdMetricSignerClientCK.key
    etcdSignerCert := b64 deps.etcdSignerCK.cert
    etcdSignerClientCert := b64 deps.etcdSignerClientCK.cert
    etcdSignerClientKey := b64 deps.etcdSignerClientCK.key
    etcdSignerKey := b64 deps.etcdSignerCK.key
    mcsTLSCert := b64 deps.mcsCK.cert
    mcsTLSKey := b64 deps.mcsCK.key
    pullSecretBase64 := b64 installConfig.pullSecret
    rootCaCert := deps.rootCACert }

/-- `applyTemplateData` (operators.go 224-231): parse the template body
(`template.Must` panics on a parse error), execute it against the bound
values (an execution error is raised with `panic(err)`), otherwise return the
rendered bytes.  The template engine (text/template) is abstract: `parse` and
`exec` are parameters. -/
def applyTemplateData {Tmpl : Type} (parse : String → Except String Tmpl)
    (exec : Tmpl → BootkubeTemplateData → Except String String)
    (data : String) (templateData : BootkubeTemplateData) : GoResult String :=
  match parse data with
  | .error e => .panicked e
  | .ok t =>
    match exec t templateData with
    | .error e => .panicked e
    | .ok s => .ok s

/-- The output path of a templated bootkube file (operators.go 216):
`filepath.Join(manifestDir, strings.TrimSuffix(filepath.Base(name), ".template"))`. -/
def bootkubeFileName (name : List Char) : List Char :=
  goJoin2 manifestDir (goTrimSuffix (goBase name) ".template".toList)

/-- The inner loop of operators.go 213-220 over the concatenated dependency
files: rename each file and bind its body; a panic raised by
`applyTemplateData` unwinds through the loop at the first offending file. -/
def bindFiles {Tmpl : Type} (parse : String → Except String Tmpl)
    (exec : Tmpl → BootkubeTemplateData → Except String String)
    (templateData : BootkubeTemplateData) : List File → GoResult (List File)
  | [] => .ok []
  | f :: rest =>
    match applyTemplateData parse exec f.data templateData with
    | .panicked e => .panicked e
    | .err e => .err e
    | .ok d =>
      match bindFiles parse exec templateData rest with
      | .ok out => .ok ({ filename := bootkubeFileName f.filename, data := d } :: out)
      | r => r

/-- `Manifests.generateBootKubeManifests` (operators.go 138-222): build the
bound-value schema from the resolved dependencies and bind every file emitted
by the templated bootkube assets, in their fixed order. -/
def generateBootKubeManifests {Tmpl : Type} (b64 : String → String)
    (parse : String → Except String Tmpl)
    (exec : Tmpl → BootkubeTemplateData → Except String String)
    (installConfig : InstallConfig) (deps : BootkubeDeps) : GoResult (List File) :=
  bindFiles parse exec (buildTemplateData b64 deps installConfig)
    deps.bootkubeFiles.flatten

/-- The mutable fields of the `Manifests` asset. -/
structure Manifests where
  kubeSysConfig : Option ConfigurationObject
  fileList : List File
deriving DecidableEq, Repr

/-- `Manifests.Files` (operators.go 134-136). -/
def Manifests.files (m : Manifests) : List File := m.fileList

/-- The ordering used on output files: by path, byte-wise. -/
def fileLe (f g : File) : Prop := f.filename ≤ g.filename

instance : DecidableRel fileLe := fun f g =>
  inferInstanceAs (Decidable (f.filename ≤ g.filename))

instance : IsTotal File fileLe := ⟨fun f g => le_total f.filename g.filename⟩

instance : IsTrans File fileLe := ⟨fun _ _ _ h h' => le_trans h h'⟩

/-- Modelled from the spec: `asset.SortFiles` (pkg/asset, not under src/)
sorts a file list "into a single deterministic total order (by path,
byte-wise)". -/
def sortFiles (l : List File) : List File := List.insertionSort fileLe l

/-- `Manifests.Generate` (operators.go 94-131) as a state transformer on the
asset: redact and serialize the install config into the status record, stage
the status-record file, bind the bootkube manifests, append the files of the
ingress/dns/network/infrastructure producers, and sort the merged list.  The
marshallers, base64 encoder and template engine are abstract parameters; the
resolved dependency values are arguments. -/
def generate {Tmpl : Type}
    (marshalIC : InstallConfig → Except String String)
    (marshalCO : ConfigurationObject → Except String String)
    (b64 : String → String)
    (parse : String → Except String Tmpl)
    (exec : Tmpl → BootkubeTemplateData → Except String String)
    (installConfig : InstallConfig) (deps : BootkubeDeps)
    (ingressFiles dnsFiles networkFiles infraFiles : List File)
    (m : Manifests) : GoResult Unit × Manifests :=
  match redactedInstallConfig marshalIC installConfig with
  | .error e => (.err ("failed to redact install-config: " ++ e), m)
  | .ok redactedConfig =>
    let kubeSysConfig :=
      configMap "kube-system" "cluster-config-v1" [("install-config", redactedConfig)]
    let m := { m with kubeSysConfig := some kubeSysConfig }
    match marshalCO kubeSysConfig with
    | .error e =>
      (.err ("failed to create kube-system/cluster-config-v1 configmap: " ++ e), m)
    | .ok kubeSysConfigData =>
      let m := { m with
        fileList := [{ filename := kubeSysConfigPath, data := kubeSysConfigData }] }
      match generateBootKubeManifests b64 parse exec installConfig deps with
      | .panicked e => (.panicked e, m)
      | .err e => (.err e, m)
      | .ok bk =>
        let fl := m.fileList ++ bk ++ ingressFiles ++ dnsFiles ++ networkFiles
          ++ infraFiles
        (.ok (), { m with fileList := sortFiles fl })

/-- The serialization pipeline of the status record inside `Generate`
(operators.go 102-113): redact the install config, wrap the bytes in the
`kube-system/cluster-config-v1` config map, serialize the record. -/
def generateStatusRecord (marshalIC : InstallConfig → Except String String)
    (marshalCO : ConfigurationObject → Except String String)
    (installConfig : InstallConfig) : Except String String :=
  match redactedInstallConfig marshalIC installConfig with
  | .error e => .error e
  | .ok redactedConfig =>
    marshalCO
      (configMap "kube-system" "cluster-config-v1" [("install-config", redactedConfig)])

/-- The observable outcome of `Manifests.Load` (operators.go 234-264): an
error, "not found" (`false, nil`), or the restored state (`true, nil` with
the discovered file list and the deserialized status record). -/
inductive LoadResult where
  | err : String → LoadResult
  | notFound : LoadResult
  | loaded : List File → ConfigurationObject → LoadResult
deriving DecidableEq, Repr

/-- The scan loop of `Load` (operators.go 245-252): walk the fetched files;
each one whose path is `kubeSysConfigPath` is unmarshaled (a failure aborts
with an error), the latest successful unmarshal and the `found` flag being
retained in the accumulator. -/
def loadScan (unmarshalCO : String → Except String ConfigurationObject) :
    List File → Option ConfigurationObject → Except String (Option ConfigurationObject)
  | [], acc => .ok acc
  | f :: rest, acc =>
    if f.filename = kubeSysConfigPath then
      match unmarshalCO f.data with
      | .error e => .error e
      | .ok cfg => loadScan unmarshalCO rest (some cfg)
    else loadScan unmarshalCO rest acc

/-- `Manifests.Load` (operators.go 234-264): a fetch failure is an error; an
empty fetch result is "not found"; otherwise the status-record file is
unmarshaled where present (a parse failure is an error, absence is "not
found"); on success the discovered list is retained, sorted.  The fetch
result and the yaml unmarshaller are parameters. -/
def load (unmarshalCO : String → Except String ConfigurationObject)
    (fetchRes : Except String (List File)) : LoadResult :=
  match fetchRes with
  | .error e => .err e
  | .ok fileList =>
    if fileList = [] then .notFound
    else
      match loadScan unmarshalCO fileList none with
      | .error e => .err ("failed to unmarshal cluster-config.yaml: " ++ e)
      | .ok none => .notFound
      | .ok (some kubeSysConfig) => .loaded (sortFiles fileList) kubeSysConfig

/-- Recursion core of `goReplaceAll`, structural on a fuel that starts at the
length of the subject string (so the `0, _ :: _` case is never reached when
called through `goReplaceAll`): scan left to right, replacing each
non-overlapping occurrence of `old`. -/
def goReplaceAllAux (old new : List Char) : Nat → List Char → List Char
  | _, [] => []
  | 0, s => s
  | fuel + 1, c :: rest =>
    if old ≠ [] ∧ old.isPrefixOf (c :: rest) then
      new ++ goReplaceAllAux old new fuel ((c :: rest).drop old.length)
    else c :: goReplaceAllAux old new fuel rest

/-- Model of Go `strings.Replace(s, old, new, -1)` (replace all,
non-overlapping, left to right) for a non-empty `old`.  (Go's special case of
an empty `old`, which inserts between characters, never arises at the call
site in operators.go.) -/
def goReplaceAll (old new s : List Char) : List Char :=
  goReplaceAllAux old new s.length s

/-- `indent` (operators.go 277-280): replace every newline of `v` with a
newline followed by `indention` spaces. -/
def indent (indention : Nat) (v : List Char) : List Char :=
  goReplaceAll ['\n'] ('\n' :: List.replicate indention ' ') v

/-- `types.InstallConfig` with the vSphere platform kept as a pointer: the
store-passing elaboration used to settle the aliasing behaviour of
`redactedInstallConfig`.  An address is an index into a store of
`VSpherePlatform` records; fresh allocation appends. -/
structure InstallConfigPtr where
  pullSecret : String
  vspherePtr : Option Nat
  rest : String
deriving DecidableEq, Repr

/-- Store-passing elaboration of the value transformation of
`redactedInstallConfig` (operators.go 266-275): the by-value config gets an
empty `PullSecret`; `p := *config.Platform.VSphere` reads the pointed-to
record, the copy's credentials are cleared, `&p` allocates a fresh cell and
the local config points there.  Nothing is ever written to an existing cell.
(An invalid pointer, which would crash Go, leaves the store unchanged; the
theorems assume a valid pointer.) -/
def redactValuePtr (store : List VSpherePlatform) (config : InstallConfigPtr) :
    List VSpherePlatform × InstallConfigPtr :=
  let config := { config with pullSecret := "" }
  match config.vspherePtr with
  | none => (store, config)
  | some a =>
    match store[a]? with
    | none => (store, config)
    | some p =>
      let p := { p with username := "", password := "" }
      (store ++ [p], { config with vspherePtr := some store.length })

/-- The data a successfully bound file carries (the `ok` payload of
`applyTemplateData`, defaulting to `""` in the unreachable failure case). -/
def bindData {Tmpl : Type} (parse : String → Except String Tmpl)
    (exec : Tmpl → BootkubeTemplateData → Except String String)
    (td : BootkubeTemplateData) (f : File) : String :=
  match applyTemplateData parse exec f.data td with
  | .ok d => d
  | _ => ""

/-- The file a successful binding produces from a dependency file. -/
def bindFile {Tmpl : Type} (parse : String → Except String Tmpl)
    (exec : Tmpl → BootkubeTemplateData → Except String String)
    (td : BootkubeTemplateData) (f : File) : File :=
  { filename := bootkubeFileName f.filename, data := bindData parse exec td f }

/-- Strict by-path ordering on files. -/
def fileLt (f g : File) : Prop := f.filename < g.filename

instance : IsAntisymm File fileLt :=
  ⟨fun _ _ h1 h2 => absurd (lt_trans h1 h2) (lt_irrefl _)⟩

/-- A concrete certificate/key pair for witnesses. -/
def ck0 : CertKey := { cert := "CERT", key := "KEY" }

/-- Concrete resolved dependencies for witnesses: one templated bootkube
asset emitting one file. -/
def deps0 : BootkubeDeps :=
  { clusterID := "uuid-0", etcdCA := ck0, etcdCABundleCert := "BUNDLE"
    etcdClientCK := ck0, etcdMetricCABundleCert := "MBUNDLE"
    etcdMetricSignerClientCK := ck0, etcdSignerCK := ck0
    etcdSignerClientCK := ck0, mcsCK := ck0, rootCACert := "ROOT"
    bootkubeFiles := [[{ filename := "pull.json.template".toList, data := "body" }]] }

/-- A concrete install config with three control-plane replicas, a non-empty
pull secret and vSphere credentials. -/
def cfg3 : InstallConfig :=
  { pullSecret := "topsecret", vsphere := some { username := "u", password := "p", rest := "vr" }
    controlPlaneReplicas := 3, clusterDomain := "cluster.example.com", rest := "other" }

/-- A concrete vSphere record for the store-passing witnesses. -/
def vp0 : VSpherePlatform := { username := "u", password := "p", rest := "vr" }

/-- A one-cell store holding `vp0` at address 0. -/
def store0 : List VSpherePlatform := [vp0]

/-- A config whose vSphere pointer is address 0 of `store0`. -/
def configPtr0 : InstallConfigPtr := { pullSecret := "sec", vspherePtr := some 0, rest := "r" }

/-- A yaml marshaller that always fails (for the C6 witness). -/
def badMarshalIC : InstallConfig → Except String String :=
  fun _ => .error "yaml failure"

/-- A yaml marshaller for install configs that always succeeds. -/
def okMarshalIC : InstallConfig → Except String String := fun _ => .ok "IC"

/-- A yaml marshaller for status records that always succeeds. -/
def okMarshalCO : ConfigurationObject → Except String String := fun _ => .ok "CO"

/-- A template engine whose parser accepts everything (templates are their
own source) and whose executor echoes the template body. -/
def okParse : String → Except String String := fun s => .ok s

/-- A template executor that succeeds, echoing the body. -/
def okExec : String → BootkubeTemplateData → Except String String :=
  fun s _ => .ok s

/-- A template executor that fails on every placeholder resolution. -/
def failExec : String → BootkubeTemplateData → Except String String :=
  fun _ _ => .error "missing placeholder"

/-- A fresh `Manifests` asset. -/
def m0 : Manifests := { kubeSysConfig := none, fileList := [] }

/-- The same configuration as `cfg3` with different pull-secret and vSphere
credentials. -/
def cfg3b : InstallConfig :=
  { pullSecret := "othersecret"
    vsphere := some { username := "u2", password := "p2", rest := "vr" }
    controlPlaneReplicas := 3, clusterDomain := "cluster.example.com", rest := "other" }

/-- An unmarshaller that accepts everything (for witnesses). -/
def okUnmarshalCO : String → Except String ConfigurationObject :=
  fun _ => .ok (configMap "kube-system" "cluster-config-v1" [("install-config", "IC")])

/-- A directory whose single file does not match the `manifests/*` pattern. -/
def disk0 : List File := [{ filename := "config.yaml".toList, data := "x" }]

/-- A templated dependency file. -/
def fileA : File := { filename := "a.yaml.template".toList, data := "A" }

/-- A second templated dependency file. -/
def fileB : File := { filename := "b.yaml.template".toList, data := "B" }

/-- Dependencies emitting `fileA` then `fileB`. -/
def depsAB : BootkubeDeps :=
  { clusterID := "uuid-0", etcdCA := ck0, etcdCABundleCert := "BUNDLE"
    etcdClientCK := ck0, etcdMetricCABundleCert := "MBUNDLE"
    etcdMetricSignerClientCK := ck0, etcdSignerCK := ck0
    etcdSignerClientCK := ck0, mcsCK := ck0, rootCACert := "ROOT"
    bootkubeFiles := [[fileA], [fileB]] }

/-- The same dependencies resolved in the opposite order. -/
def depsBA : BootkubeDeps :=
  { clusterID := "uuid-0", etcdCA := ck0, etcdCABundleCert := "BUNDLE"
    etcdClientCK := ck0, etcdMetricCABundleCert := "MBUNDLE"
    etcdMetricSignerClientCK := ck0, etcdSignerCK := ck0
    etcdSignerClientCK := ck0, mcsCK := ck0, rootCACert := "ROOT"
    bootkubeFiles := [[fileB], [fileA]] }

/-! ## Theorems -/

/-- `applyTemplateData` never returns a Go `error` value: both failure paths
of operators.go 224-231 panic. -/
theorem applyTemplateData_ne_err {Tmpl : Type}
    (parse : String → Except String Tmpl)
    (exec : Tmpl → BootkubeTemplateData → Except String String)
    (data : String) (td : BootkubeTemplateData) (e : String) :
    applyTemplateData parse exec data td ≠ .err e := by
  unfold applyTemplateData
  split
  · simp
  · split <;> simp

/-- `bindFiles` never returns a Go `error` value. -/
theorem bindFiles_ne_err {Tmpl : Type}
    (parse : String → Except String Tmpl)
    (exec : Tmpl → BootkubeTemplateData → Except String String)
    (td : BootkubeTemplateData) (fs : List File) :
    ∀ e, bindFiles parse exec td fs ≠ .err e := by
  induction fs with
  | nil => intro e; simp [bindFiles]
  | cons f rest ih =>
    intro e
    unfold bindFiles
    cases hap : applyTemplateData parse exec f.data td with
    | ok d =>
      simp only
      cases hrec : bindFiles parse exec td rest with
      | ok out => simp
      | err e' => exact absurd hrec (ih e')
      | panicked e' => simp
    | err e' => exact absurd hap (applyTemplateData_ne_err parse exec f.data td e')
    | panicked e' => simp

/-- A successful `bindFiles` run is the pointwise renaming-and-binding map
over the dependency files, and every file bound successfully. -/
theorem bindFiles_ok {Tmpl : Type}
    (parse : String → Except String Tmpl)
    (exec : Tmpl → BootkubeTemplateData → Except String String)
    (td : BootkubeTemplateData) (fs : List File) (out : List File)
    (h : bindFiles parse exec td fs = .ok out) :
    out = fs.map (bindFile parse exec td)
      ∧ ∀ f ∈ fs, applyTemplateData parse exec f.data td = .ok (bindData parse exec td f) := by
  induction fs generalizing out with
  | nil =>
    simp only [bindFiles, GoResult.ok.injEq] at h
    simp [← h]
  | cons f rest ih =>
    unfold bindFiles at h
    cases hap : applyTemplateData parse exec f.data td with
    | ok d =>
      rw [hap] at h
      simp only at h
      cases hrec : bindFiles parse exec td rest with
      | ok out' =>
        rw [hrec] at h
        simp only [GoResult.ok.injEq] at h
        obtain ⟨hmap, hall⟩ := ih out' hrec
        constructor
        · rw [← h, hmap]
          simp [bindFile, bindData, hap]
        · intro g hg
          rcases List.mem_cons.mp hg with hg | hg
          · subst hg
            simp [bindData, hap]
          · exact hall g hg
      | err e' => exact absurd hrec (bindFiles_ne_err parse exec td rest e')
      | panicked e' => rw [hrec] at h; exact absurd h (by simp)
    | err e' => exact absurd hap (applyTemplateData_ne_err parse exec f.data td e')
    | panicked e' => rw [hap] at h; exact absurd h (by simp)

/-- If every dependency file binds successfully, `bindFiles` succeeds with
the pointwise renaming-and-binding map. -/
theorem bindFiles_ok_of_all {Tmpl : Type}
    (parse : String → Except String Tmpl)
    (exec : Tmpl → BootkubeTemplateData → Except String String)
    (td : BootkubeTemplateData) (fs : List File)
    (h : ∀ f ∈ fs, ∃ d, applyTemplateData parse exec f.data td = .ok d) :
    bindFiles parse exec td fs = .ok (fs.map (bindFile parse exec td)) := by
  induction fs with
  | nil => simp [bindFiles]
  | cons f rest ih =>
    obtain ⟨d, hd⟩ := h f (by simp)
    unfold bindFiles
    rw [hd]
    simp only
    rw [ih (fun g hg => h g (by simp [hg]))]
    simp [bindFile, bindData, hd]

/-- `sortFiles` permutes its input. -/
theorem sortFiles_perm (l : List File) : List.Perm (sortFiles l) l :=
  List.perm_insertionSort fileLe l

/-- `sortFiles` sorts by path. -/
theorem sortFiles_sorted (l : List File) : List.Sorted fileLe (sortFiles l) :=
  List.sorted_insertionSort fileLe l

/-- A list sorted by path with pairwise distinct paths is strictly sorted. -/
theorem sorted_fileLt_of_nodup {l : List File} (hs : List.Sorted fileLe l)
    (hnd : (l.map File.filename).Nodup) : List.Sorted fileLt l := by
  have hpw : l.Pairwise (fun a b : File => a.filename ≠ b.filename) :=
    (List.pairwise_map.mp hnd)
  exact (hs.and hpw).imp (fun h => lt_of_le_of_ne h.1 h.2)

/-- Sorting is invariant under permutation of inputs with distinct paths:
two permuted file sets with no duplicate path sort to the same list. -/
theorem sortFiles_eq_of_perm {l1 l2 : List File} (hp : List.Perm l1 l2)
    (hnd : (l1.map File.filename).Nodup) : sortFiles l1 = sortFiles l2 := by
  have hperm : List.Perm (sortFiles l1) (sortFiles l2) :=
    ((sortFiles_perm l1).trans hp).trans (sortFiles_perm l2).symm
  have hnd1 : ((sortFiles l1).map File.filename).Nodup :=
    (((sortFiles_perm l1).map File.filename).nodup_iff).mpr hnd
  have hnd2 : ((sortFiles l2).map File.filename).Nodup :=
    ((hperm.map File.filename).nodup_iff).mp hnd1
  exact List.eq_of_perm_of_sorted hperm
    (sorted_fileLt_of_nodup (sortFiles_sorted l1) hnd1)
    (sorted_fileLt_of_nodup (sortFiles_sorted l2) hnd2)

/-- Sorting a list already sorted by path does not change it. -/
theorem sortFiles_eq_self {l : List File} (hs : List.Sorted fileLe l) :
    sortFiles l = l :=
  List.Sorted.insertionSort_eq hs

/-- A scan over files none of which is the status-record file leaves the
accumulator unchanged and succeeds. -/
theorem loadScan_no_match (um : String → Except String ConfigurationObject)
    {l : List File} (h : ∀ f ∈ l, f.filename ≠ kubeSysConfigPath)
    (acc : Option ConfigurationObject) : loadScan um l acc = .ok acc := by
  induction l generalizing acc with
  | nil => simp [loadScan]
  | cons f rest ih =>
    unfold loadScan
    rw [if_neg (h f (by simp))]
    exact ih (fun g hg => h g (by simp [hg])) acc

/-- The scan fails exactly when some fetched file carries the status-record
path and its content does not unmarshal. -/
theorem loadScan_err_iff (um : String → Except String ConfigurationObject)
    (l : List File) (acc : Option ConfigurationObject) :
    (∃ e, loadScan um l acc = .error e)
      ↔ ∃ f ∈ l, f.filename = kubeSysConfigPath ∧ ∃ e, um f.data = .error e := by
  induction l generalizing acc with
  | nil => simp [loadScan]
  | cons f rest ih =>
    unfold loadScan
    by_cases hf : f.filename = kubeSysConfigPath
    · rw [if_pos hf]
      cases hum : um f.data with
      | error e =>
        simp only [Except.error.injEq]
        constructor
        · intro _
          exact ⟨f, by simp, hf, e, hum⟩
        · intro _
          exact ⟨e, rfl⟩
      | ok cfg =>
        rw [ih (some cfg)]
        constructor
        · rintro ⟨g, hg, hgp, e, hge⟩
          exact ⟨g, by simp [hg], hgp, e, hge⟩
        · rintro ⟨g, hg, hgp, e, hge⟩
          rcases List.mem_cons.mp hg with hg | hg
          · subst hg
            rw [hum] at hge
            exact absurd hge (by simp)
          · exact ⟨g, hg, hgp, e, hge⟩
    · rw [if_neg hf]
      rw [ih acc]
      constructor
      · rintro ⟨g, hg, hgp, e, hge⟩
        exact ⟨g, by simp [hg], hgp, e, hge⟩
      · rintro ⟨g, hg, hgp, e, hge⟩
        rcases List.mem_cons.mp hg with hg | hg
        · subst hg
          exact absurd hgp hf
        · exact ⟨g, hg, hgp, e, hge⟩

/-- When the status-record file occurs in the fetched list, every occurrence
is that same file, and it unmarshals to `c`, the scan returns `some c`. -/
theorem loadScan_unique (um : String → Except String ConfigurationObject)
    (f0 : File) (c : ConfigurationObject)
    (hpath : f0.filename = kubeSysConfigPath) (hum : um f0.data = .ok c) :
    ∀ (l : List File) (acc : Option ConfigurationObject), f0 ∈ l →
      (∀ f ∈ l, f.filename = kubeSysConfigPath → f = f0) →
      loadScan um l acc = .ok (some c) := by
  intro l
  induction l with
  | nil =>
    intro acc hmem _
    exact absurd hmem (by simp)
  | cons f rest ih =>
    intro acc hmem huniq
    unfold loadScan
    by_cases hf : f.filename = kubeSysConfigPath
    · have hf0 : f = f0 := huniq f (by simp) hf
      rw [if_pos hf, hf0, hum]
      by_cases hrest : f0 ∈ rest
      · exact ih (some c) hrest (fun g hg hgp => huniq g (by simp [hg]) hgp)
      · exact loadScan_no_match um
          (fun g hg hgp => absurd ((huniq g (by simp [hg]) hgp) ▸ hg) hrest) (some c)
    · rw [if_neg hf]
      have hmem' : f0 ∈ rest := by
        rcases List.mem_cons.mp hmem with h | h
        · exact absurd (h ▸ hpath) hf
        · exact h
      exact ih acc hmem' (fun g hg hgp => huniq g (by simp [hg]) hgp)

/-- Decomposition of a successful `Generate` run: both serializations
succeeded, every template bound, and the final state holds the status record
and the sorted merged file list (the status-record file first staged, then
the bootkube files, then the files of the four fact producers). -/
theorem generate_ok_decomp {Tmpl : Type}
    (marshalIC : InstallConfig → Except String String)
    (marshalCO : ConfigurationObject → Except String String)
    (b64 : String → String) (parse : String → Except String Tmpl)
    (exec : Tmpl → BootkubeTemplateData → Except String String)
    (cfg : InstallConfig) (deps : BootkubeDeps)
    (ing dns net inf : List File) (m : Manifests)
    (h : (generate marshalIC marshalCO b64 parse exec cfg deps ing dns net inf m).1
      = .ok ()) :
    ∃ r d bk,
      marshalIC (redactValue cfg) = .ok r
      ∧ marshalCO
          (configMap "kube-system" "cluster-config-v1" [("install-config", r)]) = .ok d
      ∧ generateBootKubeManifests b64 parse exec cfg deps = .ok bk
      ∧ (generate marshalIC marshalCO b64 parse exec cfg deps ing dns net inf m).2
        = { kubeSysConfig :=
              some (configMap "kube-system" "cluster-config-v1" [("install-config", r)])
            fileList := sortFiles
              ([{ filename := kubeSysConfigPath, data := d }]
                ++ bk ++ ing ++ dns ++ net ++ inf) } := by
  unfold generate redactedInstallConfig at h ⊢
  cases hr : marshalIC (redactValue cfg) with
  | error e => rw [hr] at h; simp at h
  | ok r =>
    rw [hr] at h
    simp only at h ⊢
    cases hd : marshalCO
        (configMap "kube-system" "cluster-config-v1" [("install-config", r)]) with
    | error e => rw [hd] at h; simp at h
    | ok d =>
      rw [hd] at h
      simp only at h ⊢
      cases hbk : generateBootKubeManifests b64 parse exec cfg deps with
      | ok bk => exact ⟨r, d, bk, rfl, hd, rfl, rfl⟩
      | err e => rw [hbk] at h; simp at h
      | panicked e => rw [hbk] at h; simp at h

/-- Unfolding equation of `goReplaceAllAux` on positive fuel and a non-empty
subject. -/
theorem goReplaceAllAux_cons_succ (old new : List Char) (fuel : Nat) (c : Char)
    (rest : List Char) :
    goReplaceAllAux old new (fuel + 1) (c :: rest)
      = if old ≠ [] ∧ old.isPrefixOf (c :: rest) then
          new ++ goReplaceAllAux old new fuel ((c :: rest).drop old.length)
        else c :: goReplaceAllAux old new fuel rest := rfl

/-- Replacing newlines in a newline-free string is the identity, for any
fuel. -/
theorem goReplaceAllAux_no_nl (nl : List Char) (fuel : Nat) (v : List Char)
    (hv : '\n' ∉ v) : goReplaceAllAux ['\n'] nl fuel v = v := by
  induction v generalizing fuel with
  | nil => cases fuel <;> rfl
  | cons c rest ih =>
    cases fuel with
    | zero => rfl
    | succ fuel =>
      have hc : c ≠ '\n' := fun h => hv (by simp [h])
      rw [goReplaceAllAux_cons_succ, if_neg]
      · rw [ih fuel (fun h => hv (by simp [h]))]
      · rintro ⟨-, hpref⟩
        simp [List.isPrefixOf] at hpref
        exact hc hpref.symm

/-- Scanning a newline-free head followed by a newline: the head is copied,
the newline is replaced, and the scan continues on the tail with the
matching fuel. -/
theorem goReplaceAllAux_split (nl : List Char) (pre post : List Char)
    (hpre : '\n' ∉ pre) :
    goReplaceAllAux ['\n'] nl (pre ++ '\n' :: post).length (pre ++ '\n' :: post)
      = pre ++ nl ++ goReplaceAllAux ['\n'] nl post.length post := by
  induction pre with
  | nil =>
    simp only [List.nil_append, List.length_cons]
    rw [goReplaceAllAux_cons_succ,
      if_pos ⟨by simp, by simp [List.isPrefixOf]⟩]
    simp
  | cons c pre ih =>
    have hc : c ≠ '\n' := fun h => hpre (by simp [h])
    simp only [List.cons_append, List.length_cons]
    rw [goReplaceAllAux_cons_succ, if_neg]
    · rw [ih (fun h => hpre (by simp [h]))]
    · rintro ⟨-, hpref⟩
      simp [List.isPrefixOf] at hpref
      exact hc hpref.symm

/-- Claim C7: for every control-plane replica count `n`, the bound etcd
endpoint hostname list built by `Generate` (via `generateBootKubeManifests`'s
template-data assembly) contains exactly `n` entries, sequentially named by
index starting at 0 (`etcd-0`, `etcd-1`, ...). -/
theorem buildTemplateData_etcd_hostnames (b64 : String → String)
    (deps : BootkubeDeps) (cfg : InstallConfig) :
    (buildTemplateData b64 deps cfg).etcdEndpointHostnames.length
        = cfg.controlPlaneReplicas
      ∧ ∀ i, i < cfg.controlPlaneReplicas →
        (buildTemplateData b64 deps cfg).etcdEndpointHostnames[i]?
          = some ("etcd-" ++ toString i) := by
  refine ⟨by simp [buildTemplateData, etcdEndpointHostnames], ?_⟩
  intro i hi
  simp [buildTemplateData, etcdEndpointHostnames, hi]

/-- Witness for C7 at replica count 3: three entries, `etcd-0` first and
`etcd-2` last. -/
theorem buildTemplateData_etcd_hostnames_witness :
    (buildTemplateData id deps0 cfg3).etcdEndpointHostnames.length = 3
      ∧ (buildTemplateData id deps0 cfg3).etcdEndpointHostnames[0]? = some "etcd-0"
      ∧ (buildTemplateData id deps0 cfg3).etcdEndpointHostnames[2]? = some "etcd-2" :=
  ⟨(buildTemplateData_etcd_hostnames id deps0 cfg3).1,
    (buildTemplateData_etcd_hostnames id deps0 cfg3).2 0 (by decide),
    (buildTemplateData_etcd_hostnames id deps0 cfg3).2 2 (by decide)⟩

/-- Claim C8: for every width `n`, `indent` replaces each newline with a
newline followed by `n` spaces, leaving the first (newline-free) segment
unshifted and recursing on the tail; a newline-free string is unchanged; in
particular `indent 2 "a\nb" = "a\n  b"`. -/
theorem indent_spec (n : Nat) (pre post v : List Char)
    (hpre : '\n' ∉ pre) (hv : '\n' ∉ v) :
    indent n (pre ++ '\n' :: post)
        = pre ++ '\n' :: List.replicate n ' ' ++ indent n post
      ∧ indent n v = v
      ∧ indent 2 "a\nb".toList = "a\n  b".toList := by
  refine ⟨?_, goReplaceAllAux_no_nl _ _ v hv, by decide⟩
  have h := goReplaceAllAux_split ('\n' :: List.replicate n ' ') pre post hpre
  unfold indent goReplaceAll
  rw [h]

/-- Witness for C8 at `n = 2`, `pre = "a"`, `post = "b"`, `v = "xy"`. -/
theorem indent_spec_witness :
    indent 2 ("a".toList ++ '\n' :: "b".toList)
        = "a".toList ++ '\n' :: List.replicate 2 ' ' ++ indent 2 "b".toList
      ∧ indent 2 "xy".toList = "xy".toList :=
  ⟨(indent_spec 2 "a".toList "b".toList "xy".toList (by decide) (by decide)).1,
    (indent_spec 2 "a".toList "b".toList "xy".toList (by decide) (by decide)).2.1⟩

/-- Claim C9: `redactedInstallConfig` operates on a copy.  In the
store-passing elaboration, every store cell that existed before the call is
unchanged afterwards — in particular the vSphere record the caller still
points to keeps its original username and password — while the redacted
config points to a fresh cell holding the cleared copy, and the local
config's pull secret is cleared with all other fields preserved. -/
theorem redactValuePtr_frame (store : List VSpherePlatform)
    (config : InstallConfigPtr) (a : Nat) (p0 : VSpherePlatform)
    (hptr : config.vspherePtr = some a) (ha : store[a]? = some p0) :
    (∀ i, i < store.length → ((redactValuePtr store config).1)[i]? = store[i]?)
      ∧ ((redactValuePtr store config).1)[a]? = some p0
      ∧ (∃ a', (redactValuePtr store config).2.vspherePtr = some a' ∧ a' ≠ a
          ∧ ((redactValuePtr store config).1)[a']?
            = some { p0 with username := "", password := "" })
      ∧ (redactValuePtr store config).2.pullSecret = ""
      ∧ (redactValuePtr store config).2.rest = config.rest := by
  have halen : a < store.length := by
    by_contra hlen
    rw [List.getElem?_eq_none (Nat.le_of_not_lt hlen)] at ha
    exact absurd ha (by simp)
  have hres : redactValuePtr store config
      = (store ++ [{ p0 with username := "", password := "" }],
        { pullSecret := "", vspherePtr := some store.length, rest := config.rest }) := by
    unfold redactValuePtr
    simp [hptr, ha]
  rw [hres]
  refine ⟨?_, ?_, ⟨store.length, rfl, ?_, ?_⟩, rfl, rfl⟩
  · intro i hi
    rw [List.getElem?_append, if_pos hi]
  · rw [List.getElem?_append, if_pos halen]
    exact ha
  · exact fun h => absurd (h ▸ halen) (lt_irrefl _)
  · exact List.getElem?_concat_length _ _

/-- Witness for C9: at the one-cell store, the original record is intact
after redaction and the redacted config's secrets are cleared. -/
theorem redactValuePtr_frame_witness :
    ((redactValuePtr store0 configPtr0).1)[0]? = some vp0
      ∧ (redactValuePtr store0 configPtr0).2.pullSecret = "" :=
  ⟨(redactValuePtr_frame store0 configPtr0 0 vp0 rfl (by decide)).2.1,
    (redactValuePtr_frame store0 configPtr0 0 vp0 rfl (by decide)).2.2.2.1⟩

/-- `generateBootKubeManifests` never returns a Go `error` value (its only
failure mode is a panic). -/
theorem generateBootKubeManifests_ne_err {Tmpl : Type} (b64 : String → String)
    (parse : String → Except String Tmpl)
    (exec : Tmpl → BootkubeTemplateData → Except String String)
    (cfg : InstallConfig) (deps : BootkubeDeps) (e : String) :
    generateBootKubeManifests b64 parse exec cfg deps ≠ .err e :=
  bindFiles_ne_err parse exec (buildTemplateData b64 deps cfg)
    deps.bootkubeFiles.flatten e

/-- Claim C6: whenever `Generate` returns an error (redaction failure or
status-record serialization failure), it returns before any file is placed in
the merged file list: `FileList` is unchanged, `Files()` returns the prior
artifacts, and on a fresh (empty) asset no artifacts at all. -/
theorem generate_err_atomic {Tmpl : Type}
    (marshalIC : InstallConfig → Except String String)
    (marshalCO : ConfigurationObject → Except String String)
    (b64 : String → String) (parse : String → Except String Tmpl)
    (exec : Tmpl → BootkubeTemplateData → Except String String)
    (cfg : InstallConfig) (deps : BootkubeDeps)
    (ing dns net inf : List File) (m : Manifests) (e : String)
    (h : (generate marshalIC marshalCO b64 parse exec cfg deps ing dns net inf m).1
      = .err e) :
    (generate marshalIC marshalCO b64 parse exec cfg deps ing dns net inf m).2.fileList
        = m.fileList
      ∧ Manifests.files
          (generate marshalIC marshalCO b64 parse exec cfg deps ing dns net inf m).2
        = Manifests.files m
      ∧ (m.fileList = [] →
          Manifests.files
            (generate marshalIC marshalCO b64 parse exec cfg deps ing dns net inf m).2
          = []) := by
  suffices hfl :
      (generate marshalIC marshalCO b64 parse exec cfg deps ing dns net
        inf m).2.fileList = m.fileList by
    exact ⟨hfl, hfl, fun hm => by rw [Manifests.files, hfl, hm]⟩
  unfold generate redactedInstallConfig at h ⊢
  cases hr : marshalIC (redactValue cfg) with
  | error e' => rfl
  | ok r =>
    rw [hr] at h
    simp only at h ⊢
    cases hd : marshalCO
        (configMap "kube-system" "cluster-config-v1" [("install-config", r)]) with
    | error e' => rfl
    | ok d =>
      rw [hd] at h
      simp only at h ⊢
      cases hbk : generateBootKubeManifests b64 parse exec cfg deps with
      | ok bk => rw [hbk] at h; simp at h
      | panicked e' => rw [hbk] at h; simp at h
      | err e' =>
        exact absurd hbk (generateBootKubeManifests_ne_err b64 parse exec cfg deps e')

/-- Witness for C6: with a failing redaction serializer, `Generate` returns
the wrapped error and the fresh asset still exposes no artifacts. -/
theorem generate_err_atomic_witness :
    Manifests.files
      (generate badMarshalIC okMarshalCO id okParse okExec cfg3 deps0 [] [] [] []
        m0).2 = [] :=
  (generate_err_atomic badMarshalIC okMarshalCO id okParse okExec cfg3 deps0
    [] [] [] [] m0 "failed to redact install-config: yaml failure" rfl).2.2 rfl

/-- Counterexample to C3 as stated: at a template whose execution fails to
resolve a placeholder, `Generate` does not surface the failure as an error
result returned up the call chain — it panics (the abrupt unwind crosses the
component boundary). -/
theorem generate_template_err_counterexample :
    (generate okMarshalIC okMarshalCO id okParse failExec cfg3 deps0 [] [] [] []
          m0).1 = .panicked "missing placeholder"
      ∧ GoResult.isErr
          (generate okMarshalIC okMarshalCO id okParse failExec cfg3 deps0 [] [] []
            [] m0).1 = false :=
  ⟨rfl, rfl⟩

/-- Claim C3 (amended): a failure to resolve a placeholder (or a malformed
template) aborts the whole aggregation, but as a panic propagating out of
`applyTemplateData` and `Generate` (`template.Must` / `panic(err)` at
operators.go 224-231), never as an error result returned up the call
chain. -/
theorem generate_template_panic {Tmpl : Type}
    (marshalIC : InstallConfig → Except String String)
    (marshalCO : ConfigurationObject → Except String String)
    (b64 : String → String) (parse : String → Except String Tmpl)
    (exec : Tmpl → BootkubeTemplateData → Except String String)
    (cfg : InstallConfig) (deps : BootkubeDeps)
    (ing dns net inf : List File) (m : Manifests) (r d e : String)
    (hr : marshalIC (redactValue cfg) = .ok r)
    (hd : marshalCO
      (configMap "kube-system" "cluster-config-v1" [("install-config", r)]) = .ok d)
    (hbk : generateBootKubeManifests b64 parse exec cfg deps = .panicked e) :
    (generate marshalIC marshalCO b64 parse exec cfg deps ing dns net inf m).1
        = .panicked e
      ∧ (∀ e', (generate marshalIC marshalCO b64 parse exec cfg deps ing dns net
          inf m).1 ≠ .err e')
      ∧ ∀ (t : Tmpl) (s e0 : String) (td : BootkubeTemplateData),
          parse s = .ok t → exec t td = .error e0 →
          applyTemplateData parse exec s td = .panicked e0 := by
  have h1 : (generate marshalIC marshalCO b64 parse exec cfg deps ing dns net inf
      m).1 = .panicked e := by
    unfold generate redactedInstallConfig
    rw [hr]
    simp only
    rw [hd]
    simp only
    rw [hbk]
  refine ⟨h1, fun e' he => by rw [h1] at he; exact absurd he (by simp), ?_⟩
  intro t s e0 td hp he
  simp [applyTemplateData, hp, he]

/-- Witness for the amended C3: with the failing executor, `Generate` panics
with the executor's message. -/
theorem generate_template_panic_witness :
    (generate okMarshalIC okMarshalCO id okParse failExec cfg3 deps0 [] [] [] []
      m0).1 = .panicked "missing placeholder" :=
  (generate_template_panic okMarshalIC okMarshalCO id okParse failExec cfg3 deps0
    [] [] [] [] m0 "IC" "CO" "missing placeholder" rfl rfl rfl).1

/-- Claim C10: every file emitted by a templated bootkube dependency yields,
in a successful run, exactly one output artifact at the same position, named
`manifests/<base name without a trailing ".template">`, whose content is the
template body applied to the bound-value schema. -/
theorem generateBootKubeManifests_files {Tmpl : Type} (b64 : String → String)
    (parse : String → Except String Tmpl)
    (exec : Tmpl → BootkubeTemplateData → Except String String)
    (cfg : InstallConfig) (deps : BootkubeDeps) (out : List File)
    (h : generateBootKubeManifests b64 parse exec cfg deps = .ok out) :
    out.length = deps.bootkubeFiles.flatten.length
      ∧ ∀ i, i < deps.bootkubeFiles.flatten.length → ∃ f d,
          deps.bootkubeFiles.flatten[i]? = some f
          ∧ out[i]? = some
              { filename := goJoin2 manifestDir
                  (goTrimSuffix (goBase f.filename) ".template".toList)
                data := d }
          ∧ applyTemplateData parse exec f.data (buildTemplateData b64 deps cfg)
            = .ok d := by
  unfold generateBootKubeManifests at h
  obtain ⟨hmap, hall⟩ := bindFiles_ok parse exec (buildTemplateData b64 deps cfg)
    deps.bootkubeFiles.flatten out h
  constructor
  · rw [hmap, List.length_map]
  · intro i hi
    have hgf : deps.bootkubeFiles.flatten[i]? = some deps.bootkubeFiles.flatten[i] :=
      List.getElem?_eq_getElem hi
    refine ⟨deps.bootkubeFiles.flatten[i],
      bindData parse exec (buildTemplateData b64 deps cfg)
        deps.bootkubeFiles.flatten[i], hgf, ?_, ?_⟩
    · rw [hmap, List.getElem?_map, hgf]
      rfl
    · exact hall deps.bootkubeFiles.flatten[i] (List.getElem_mem hi)

/-- Witness for C10 at the one-file fixture: the single `pull.json.template`
dependency file becomes `manifests/pull.json` with the bound body. -/
theorem generateBootKubeManifests_files_witness :
    (0 : Nat) < deps0.bootkubeFiles.flatten.length
      ∧ ∃ f d, deps0.bootkubeFiles.flatten[0]? = some f
          ∧ (deps0.bootkubeFiles.flatten.map
              (bindFile okParse okExec (buildTemplateData id deps0 cfg3)))[0]? = some
              { filename := goJoin2 manifestDir
                  (goTrimSuffix (goBase f.filename) ".template".toList)
                data := d }
          ∧ applyTemplateData okParse okExec f.data (buildTemplateData id deps0 cfg3)
            = .ok d :=
  ⟨by decide,
    (generateBootKubeManifests_files id okParse okExec cfg3 deps0
      (deps0.bootkubeFiles.flatten.map
        (bindFile okParse okExec (buildTemplateData id deps0 cfg3)))
      (bindFiles_ok_of_all okParse okExec (buildTemplateData id deps0 cfg3)
        deps0.bootkubeFiles.flatten
        (fun f _ => ⟨f.data, rfl⟩))).2 0 (by decide)⟩

/-- `redactValue` computes exactly the spec-side scrub of the secret
fields. -/
theorem redactValue_eq_scrubSecrets (c : InstallConfig) :
    redactValue c = scrubSecrets c := by
  cases c with
  | mk ps vs rep dom rest => cases vs <;> simp [redactValue, scrubSecrets]

/-- Claim C1: for configurations with a non-empty pull secret (and non-empty
vSphere credentials when that platform is set), the redacted value entering
the status record carries none of those secrets, and two configurations
differing only in the secret fields produce the same serialized status record
and the same in-memory `KubeSysConfig` — for any behaviour of the yaml
library. -/
theorem generate_no_secret_leak {Tmpl : Type}
    (marshalIC : InstallConfig → Except String String)
    (marshalCO : ConfigurationObject → Except String String)
    (b64 : String → String) (parse : String → Except String Tmpl)
    (exec : Tmpl → BootkubeTemplateData → Except String String)
    (deps : BootkubeDeps) (ing dns net inf : List File) (m : Manifests)
    (c1 c2 : InstallConfig)
    (h1 : c1.pullSecret ≠ "")
    (h2 : ∀ p, c1.vsphere = some p → p.username ≠ "" ∧ p.password ≠ "")
    (hagree : scrubSecrets c1 = scrubSecrets c2) :
    (redactValue c1).pullSecret = ""
      ∧ (∀ p, (redactValue c1).vsphere = some p → p.username = "" ∧ p.password = "")
      ∧ generateStatusRecord marshalIC marshalCO c1
        = generateStatusRecord marshalIC marshalCO c2
      ∧ (generate marshalIC marshalCO b64 parse exec c1 deps ing dns net inf
          m).2.kubeSysConfig
        = (generate marshalIC marshalCO b64 parse exec c2 deps ing dns net inf
          m).2.kubeSysConfig := by
  have hrv : redactValue c1 = redactValue c2 := by
    rw [redactValue_eq_scrubSecrets, redactValue_eq_scrubSecrets, hagree]
  refine ⟨?_, ?_, ?_, ?_⟩
  · cases c1 with
    | mk ps vs rep dom rest => cases vs <;> simp [redactValue]
  · intro p hp
    cases c1 with
    | mk ps vs rep dom rest =>
      cases vs with
      | none => simp [redactValue] at hp
      | some q =>
        simp [redactValue] at hp
        rw [← hp]
        exact ⟨rfl, rfl⟩
  · unfold generateStatusRecord redactedInstallConfig
    rw [hrv]
  · unfold generate redactedInstallConfig
    rw [hrv]
    cases hr : marshalIC (redactValue c2) with
    | error e => rfl
    | ok r =>
      simp only
      cases hd : marshalCO
          (configMap "kube-system" "cluster-config-v1" [("install-config", r)]) with
      | error e => rfl
      | ok d =>
        simp only
        cases hbk1 : generateBootKubeManifests b64 parse exec c1 deps <;>
          cases hbk2 : generateBootKubeManifests b64 parse exec c2 deps <;> rfl

/-- Witness for C1: at `cfg3`/`cfg3b` (same configuration, different
secrets), the redacted pull secret is empty and the serialized status records
agree. -/
theorem generate_no_secret_leak_witness :
    (redactValue cfg3).pullSecret = ""
      ∧ generateStatusRecord okMarshalIC okMarshalCO cfg3
        = generateStatusRecord okMarshalIC okMarshalCO cfg3b :=
  ⟨(generate_no_secret_leak okMarshalIC okMarshalCO id okParse okExec deps0
      [] [] [] [] m0 cfg3 cfg3b (by decide)
      (fun p hp => by
        simp [cfg3] at hp
        rw [← hp]
        exact ⟨by decide, by decide⟩)
      (by decide)).1,
    (generate_no_secret_leak okMarshalIC okMarshalCO id okParse okExec deps0
      [] [] [] [] m0 cfg3 cfg3b (by decide)
      (fun p hp => by
        simp [cfg3] at hp
        rw [← hp]
        exact ⟨by decide, by decide⟩)
      (by decide)).2.2.1⟩

/-- Claim C4: `Load` distinguishes absence from malformed presence.  A fetch
failure is an error; a fetch matching zero files is "not found" with no
error; matching files among which the status-record path is absent is "not
found" with no error; and over a successful fetch, `Load` errs exactly when a
fetched file carries the status-record path but its content does not
unmarshal. -/
theorem load_cases (um : String → Except String ConfigurationObject)
    (disk : List File) (e : String) :
    load um (.error e) = .err e
      ∧ (fetchByPattern disk = [] → load um (.ok (fetchByPattern disk)) = .notFound)
      ∧ ((∀ f ∈ fetchByPattern disk, f.filename ≠ kubeSysConfigPath) →
          load um (.ok (fetchByPattern disk)) = .notFound)
      ∧ ((∃ e', load um (.ok (fetchByPattern disk)) = .err e')
          ↔ ∃ f ∈ fetchByPattern disk, f.filename = kubeSysConfigPath
              ∧ ∃ e', um f.data = .error e') := by
  refine ⟨rfl, ?_, ?_, ?_⟩
  · intro h
    simp [load, h]
  · intro h
    by_cases hfl : fetchByPattern disk = []
    · simp [load, hfl]
    · simp only [load]
      rw [if_neg hfl, loadScan_no_match um h none]
  · constructor
    · rintro ⟨e', he⟩
      by_cases hfl : fetchByPattern disk = []
      · rw [hfl] at he
        simp [load] at he
      · simp only [load] at he
        rw [if_neg hfl] at he
        cases hscan : loadScan um (fetchByPattern disk) none with
        | error e0 =>
          exact (loadScan_err_iff um (fetchByPattern disk) none).mp ⟨e0, hscan⟩
        | ok acc =>
          rw [hscan] at he
          cases acc <;> simp at he
    · rintro ⟨f, hf, hfp, e', hfe⟩
      have hfl : fetchByPattern disk ≠ [] := by
        intro h
        rw [h] at hf
        exact absurd hf (by simp)
      obtain ⟨e0, hscan⟩ :=
        (loadScan_err_iff um (fetchByPattern disk) none).mpr ⟨f, hf, hfp, e', hfe⟩
      exact ⟨"failed to unmarshal cluster-config.yaml: " ++ e0,
        by simp [load, if_neg hfl, hscan]⟩

/-- Witness for C4: a fetch failure surfaces as an error; fetching an
unrelated directory (zero pattern matches) is "not found" with no error. -/
theorem load_cases_witness :
    load okUnmarshalCO (.error "io") = .err "io"
      ∧ load okUnmarshalCO (.ok (fetchByPattern disk0)) = .notFound :=
  ⟨(load_cases okUnmarshalCO disk0 "io").1,
    (load_cases okUnmarshalCO disk0 "io").2.1 (by decide)⟩

/-- Claim C2: feeding the file set of a successful `Generate` unmodified back
into `Load` (through the `manifests/*` fetch) restores the asset: `Load`
reports found with no error, returns exactly the generated file list (same
paths and contents, already in sorted order, retained rather than
re-derived), and recovers the generated status record.  Hypotheses: the yaml
library round-trips the status record, templated outputs and the fact
producers place their files under `manifests/` (as the repository's assets
do), and generated paths are unique. -/
theorem generate_load_roundtrip {Tmpl : Type}
    (marshalIC : InstallConfig → Except String String)
    (marshalCO : ConfigurationObject → Except String String)
    (um : String → Except String ConfigurationObject)
    (b64 : String → String) (parse : String → Except String Tmpl)
    (exec : Tmpl → BootkubeTemplateData → Except String String)
    (cfg : InstallConfig) (deps : BootkubeDeps)
    (ing dns net inf : List File) (m : Manifests) (r : String)
    (hred : redactedInstallConfig marshalIC cfg = .ok r)
    (hrt : ∀ s, marshalCO
        (configMap "kube-system" "cluster-config-v1" [("install-config", r)]) = .ok s →
      um s = .ok (configMap "kube-system" "cluster-config-v1" [("install-config", r)]))
    (hok : (generate marshalIC marshalCO b64 parse exec cfg deps ing dns net inf
      m).1 = .ok ())
    (hbkglob : ∀ f ∈ deps.bootkubeFiles.flatten,
      matchesManifestGlob (bootkubeFileName f.filename) = true)
    (hfacts : ∀ f ∈ ing ++ dns ++ net ++ inf, matchesManifestGlob f.filename = true)
    (hnd : (((generate marshalIC marshalCO b64 parse exec cfg deps ing dns net inf
      m).2.fileList).map File.filename).Nodup) :
    ∃ c, (generate marshalIC marshalCO b64 parse exec cfg deps ing dns net inf
        m).2.kubeSysConfig = some c
      ∧ load um (.ok (fetchByPattern
          ((generate marshalIC marshalCO b64 parse exec cfg deps ing dns net inf
            m).2.fileList)))
        = .loaded ((generate marshalIC marshalCO b64 parse exec cfg deps ing dns net
            inf m).2.fileList) c := by
  obtain ⟨r', d, bk, hr', hd, hbk, hstate⟩ :=
    generate_ok_decomp marshalIC marshalCO b64 parse exec cfg deps ing dns net inf
      m hok
  unfold redactedInstallConfig at hred
  rw [hred] at hr'
  obtain rfl : r = r' := by injection hr'
  set co := configMap "kube-system" "cluster-config-v1" [("install-config", r)]
    with hco
  set kubeFile : File := { filename := kubeSysConfigPath, data := d } with hkf
  set base : List File := [kubeFile] ++ bk ++ ing ++ dns ++ net ++ inf with hbase
  have hfl : (generate marshalIC marshalCO b64 parse exec cfg deps ing dns net inf
      m).2.fileList = sortFiles base := by rw [hstate]
  have hbkmap : bk = deps.bootkubeFiles.flatten.map
      (bindFile parse exec (buildTemplateData b64 deps cfg)) := by
    unfold generateBootKubeManifests at hbk
    exact (bindFiles_ok parse exec _ _ bk hbk).1
  -- every generated file matches the fetch pattern
  have hglob : ∀ f ∈ sortFiles base, matchesManifestGlob f.filename = true := by
    intro f hf
    rw [(sortFiles_perm base).mem_iff] at hf
    rw [hbase] at hf
    simp only [List.mem_append, List.mem_singleton] at hf
    rcases hf with ((((hf | hf) | hf) | hf) | hf) | hf
    · rw [hf, hkf]
      exact (by decide : matchesManifestGlob kubeSysConfigPath = true)
    · rw [hbkmap] at hf
      obtain ⟨g, hg, rfl⟩ := List.mem_map.mp hf
      exact hbkglob g hg
    · exact hfacts f (by simp [hf])
    · exact hfacts f (by simp [hf])
    · exact hfacts f (by simp [hf])
    · exact hfacts f (by simp [hf])
  have hfetch : fetchByPattern (sortFiles base) = sortFiles base :=
    List.filter_eq_self.mpr hglob
  have hkmem : kubeFile ∈ sortFiles base := by
    rw [(sortFiles_perm base).mem_iff, hbase]
    simp
  have hne : sortFiles base ≠ [] := by
    intro h
    rw [h] at hkmem
    exact absurd hkmem (by simp)
  have hnd' : ((sortFiles base).map File.filename).Nodup := by
    rw [← hfl]
    exact hnd
  have huniq : ∀ f ∈ sortFiles base, f.filename = kubeSysConfigPath → f = kubeFile := by
    intro f hf hfp
    exact List.inj_on_of_nodup_map hnd' hf hkmem (by rw [hfp, hkf])
  have hum : um d = .ok co := hrt d hd
  have hscan : loadScan um (sortFiles base) none = .ok (some co) :=
    loadScan_unique um kubeFile co rfl hum (sortFiles base) none hkmem huniq
  refine ⟨co, by rw [hstate], ?_⟩
  rw [hfl, hfetch]
  simp only [load]
  rw [if_neg hne, hscan]
  rw [sortFiles_eq_self (sortFiles_sorted base)]

/-- Witness for C2: a full concrete `Generate` run fed back through the
pattern fetch into `Load` restores the same file list and status record. -/
theorem generate_load_roundtrip_witness :
    ∃ c, (generate okMarshalIC okMarshalCO id okParse okExec cfg3 deps0 [] [] [] []
        m0).2.kubeSysConfig = some c
      ∧ load okUnmarshalCO (.ok (fetchByPattern
          ((generate okMarshalIC okMarshalCO id okParse okExec cfg3 deps0 [] [] [] []
            m0).2.fileList)))
        = .loaded ((generate okMarshalIC okMarshalCO id okParse okExec cfg3 deps0 []
            [] [] [] m0).2.fileList) c :=
  generate_load_roundtrip okMarshalIC okMarshalCO okUnmarshalCO id okParse okExec
    cfg3 deps0 [] [] [] [] m0 "IC" rfl (fun _ _ => rfl) rfl (by decide) (by decide)
    (by decide)

/-- Claim C5: `Generate` is deterministic.  From identical producer states a
second run yields the identical result regardless of the asset's prior
state; the merged list is sorted by path; and when the dependency producers
emit the same files in a different order (a permutation per producer), the
final merged byte-identical list is unchanged (paths being unique). -/
theorem generate_deterministic {Tmpl : Type}
    (marshalIC : InstallConfig → Except String String)
    (marshalCO : ConfigurationObject → Except String String)
    (b64 : String → String) (parse : String → Except String Tmpl)
    (exec : Tmpl → BootkubeTemplateData → Except String String)
    (cfg : InstallConfig) (depsA depsB : BootkubeDeps)
    (ingA dnsA netA infA ingB dnsB netB infB : List File) (m1 m2 : Manifests)
    (heq : depsB = { depsA with bootkubeFiles := depsB.bootkubeFiles })
    (hpbk : List.Perm depsA.bootkubeFiles.flatten depsB.bootkubeFiles.flatten)
    (hping : List.Perm ingA ingB) (hpdns : List.Perm dnsA dnsB)
    (hpnet : List.Perm netA netB) (hpinf : List.Perm infA infB)
    (hok : (generate marshalIC marshalCO b64 parse exec cfg depsA ingA dnsA netA
      infA m1).1 = .ok ())
    (hnd : (((generate marshalIC marshalCO b64 parse exec cfg depsA ingA dnsA netA
      infA m1).2.fileList).map File.filename).Nodup) :
    generate marshalIC marshalCO b64 parse exec cfg depsA ingA dnsA netA infA m2
        = generate marshalIC marshalCO b64 parse exec cfg depsA ingA dnsA netA infA
          m1
      ∧ List.Sorted fileLe
          ((generate marshalIC marshalCO b64 parse exec cfg depsA ingA dnsA netA
            infA m1).2.fileList)
      ∧ (generate marshalIC marshalCO b64 parse exec cfg depsB ingB dnsB netB infB
          m1).1 = .ok ()
      ∧ (generate marshalIC marshalCO b64 parse exec cfg depsB ingB dnsB netB infB
          m1).2.fileList
        = (generate marshalIC marshalCO b64 parse exec cfg depsA ingA dnsA netA
          infA m1).2.fileList := by
  obtain ⟨r, d, bk, hr, hd, hbkA, hstateA⟩ :=
    generate_ok_decomp marshalIC marshalCO b64 parse exec cfg depsA ingA dnsA netA
      infA m1 hok
  have htd : buildTemplateData b64 depsB cfg = buildTemplateData b64 depsA cfg := by
    rw [heq]
    rfl
  obtain ⟨hbkmapA, hallA⟩ := by
    unfold generateBootKubeManifests at hbkA
    exact bindFiles_ok parse exec (buildTemplateData b64 depsA cfg)
      depsA.bootkubeFiles.flatten bk hbkA
  have hbkB : generateBootKubeManifests b64 parse exec cfg depsB
      = .ok (depsB.bootkubeFiles.flatten.map
          (bindFile parse exec (buildTemplateData b64 depsA cfg))) := by
    unfold generateBootKubeManifests
    rw [htd]
    exact bindFiles_ok_of_all parse exec (buildTemplateData b64 depsA cfg)
      depsB.bootkubeFiles.flatten
      (fun f hf => ⟨bindData parse exec (buildTemplateData b64 depsA cfg) f,
        hallA f (hpbk.mem_iff.mpr hf)⟩)
  have hAfull : ∀ mm : Manifests,
      generate marshalIC marshalCO b64 parse exec cfg depsA ingA dnsA netA infA mm
        = (.ok (),
          { kubeSysConfig :=
              some (configMap "kube-system" "cluster-config-v1"
                [("install-config", r)])
            fileList := sortFiles
              ([{ filename := kubeSysConfigPath, data := d }]
                ++ bk ++ ingA ++ dnsA ++ netA ++ infA) }) := by
    intro mm
    unfold generate redactedInstallConfig
    rw [hr]
    simp only
    rw [hd]
    simp only
    rw [hbkA]
  have hBfull :
      generate marshalIC marshalCO b64 parse exec cfg depsB ingB dnsB netB infB m1
        = (.ok (),
          { kubeSysConfig :=
              some (configMap "kube-system" "cluster-config-v1"
                [("install-config", r)])
            fileList := sortFiles
              ([{ filename := kubeSysConfigPath, data := d }]
                ++ depsB.bootkubeFiles.flatten.map
                    (bindFile parse exec (buildTemplateData b64 depsA cfg))
                ++ ingB ++ dnsB ++ netB ++ infB) }) := by
    unfold generate redactedInstallConfig
    rw [hr]
    simp only
    rw [hd]
    simp only
    rw [hbkB]
  have hbase : List.Perm
      ([({ filename := kubeSysConfigPath, data := d } : File)]
        ++ bk ++ ingA ++ dnsA ++ netA ++ infA)
      ([({ filename := kubeSysConfigPath, data := d } : File)]
        ++ depsB.bootkubeFiles.flatten.map
            (bindFile parse exec (buildTemplateData b64 depsA cfg))
        ++ ingB ++ dnsB ++ netB ++ infB) := by
    have hbkperm : List.Perm bk
        (depsB.bootkubeFiles.flatten.map
          (bindFile parse exec (buildTemplateData b64 depsA cfg))) := by
      rw [hbkmapA]
      exact hpbk.map _
    exact (((((List.Perm.refl _).append hbkperm).append hping).append
      hpdns).append hpnet).append hpinf
  have hndA : (([({ filename := kubeSysConfigPath, data := d } : File)]
      ++ bk ++ ingA ++ dnsA ++ netA ++ infA).map File.filename).Nodup := by
    rw [hstateA] at hnd
    exact ((sortFiles_perm _).map File.filename).nodup_iff.mp hnd
  refine ⟨by rw [hAfull m2, hAfull m1], ?_, by rw [hBfull], ?_⟩
  · rw [hstateA]
    exact sortFiles_sorted _
  · rw [hBfull, hstateA]
    exact (sortFiles_eq_of_perm hbase hndA).symm

/-- Witness for C5: with the two templated files collected in the opposite
order, `Generate` still succeeds and produces the identical merged file
list; rerunning from a different prior asset state changes nothing. -/
theorem generate_deterministic_witness :
    generate okMarshalIC okMarshalCO id okParse okExec cfg3 depsAB [] [] [] []
        { kubeSysConfig := none, fileList := [fileA] }
      = generate okMarshalIC okMarshalCO id okParse okExec cfg3 depsAB [] [] [] [] m0
      ∧ (generate okMarshalIC okMarshalCO id okParse okExec cfg3 depsBA [] [] [] []
          m0).1 = .ok ()
      ∧ (generate okMarshalIC okMarshalCO id okParse okExec cfg3 depsBA [] [] [] []
          m0).2.fileList
        = (generate okMarshalIC okMarshalCO id okParse okExec cfg3 depsAB [] [] [] []
          m0).2.fileList :=
  ⟨(generate_deterministic okMarshalIC okMarshalCO id okParse okExec cfg3 depsAB
      depsBA [] [] [] [] [] [] [] [] m0 { kubeSysConfig := none, fileList := [fileA] }
      rfl (by decide) (List.Perm.refl []) (List.Perm.refl []) (List.Perm.refl [])
      (List.Perm.refl []) rfl (by decide)).1,
    (generate_deterministic okMarshalIC okMarshalCO id okParse okExec cfg3 depsAB
      depsBA [] [] [] [] [] [] [] [] m0 { kubeSysConfig := none, fileList := [fileA] }
      rfl (by decide) (List.Perm.refl []) (List.Perm.refl []) (List.Perm.refl [])
      (List.Perm.refl []) rfl (by decide)).2.2.1,
    (generate_deterministic okMarshalIC okMarshalCO id okParse okExec cfg3 depsAB
      depsBA [] [] [] [] [] [] [] [] m0 { kubeSysConfig := none, fileList := [fileA] }
      rfl (by decide) (List.Perm.refl []) (List.Perm.refl []) (List.Perm.refl [])
      (List.Perm.refl []) rfl (by decide)).2.2.2⟩
